import Mathlib

/-!
Verification of the proxy orchestrator and the telemetry-worker lifecycle of
`packages/proxy/src/proxy.ts`.

The file embeds the control logic of `handleProxy`, `getUsageWorker` and
`terminateUsageWorker` directly from the source.  The external collaborators
imported from `./handlers` (path validation, body preparation, interception,
account selection, the per-account proxy call, the unauthenticated proxy call
and the refresh-token heuristic) are modelled as fields of an environment
record: the source treats them as opaque calls, so the embedding quantifies
over their behaviour.
-/

namespace BetterCcflare

/-- A byte buffer (the shared buffered request body). -/
abbrev Buf := List Nat

-- ===== SHELL ESCAPING (proxy.ts lines 257-265) =====

/-- A single-quote character as a one-character string. -/
def squote : String := String.mk ['\'']

/-- Character-level form of `name.replace(/'/g, "'\\''")` (proxy.ts line 263):
every single quote is replaced by the four characters
quote, backslash, quote, quote; every other character is kept. -/
def escChars : List Char → List Char
  | [] => []
  | c :: cs => (if c = '\'' then ['\'', '\\', '\'', '\''] else [c]) ++ escChars cs

/-- `acc.name.replace(/'/g, "'\\''")` from proxy.ts line 263. -/
def escapeSingleQuotes (s : String) : String := String.mk (escChars s.data)

/-- The remediation command built for one account name (proxy.ts line 263):
`bun run cli --reauthenticate '<escaped name>'`. -/
def reauthCommand (name : String) : String :=
  "bun run cli --reauthenticate " ++ squote ++ escapeSingleQuotes name ++ squote

/-- State of a POSIX-style shell field splitter: outside quotes with an
optional partial word, right after an unquoted backslash, or inside single
quotes with the partial word so far. -/
inductive ShMode where
  | norm (cur : Option (List Char))
  | escaped (cur : Option (List Char))
  | quoted (cur : List Char)

/-- End of input: emit the pending word, if any. -/
def shFinish : ShMode → List (List Char)
  | .norm none => []
  | .norm (some t) => [t]
  | .escaped none => []
  | .escaped (some t) => [t]
  | .quoted t => [t]

/-- POSIX-style shell field splitting covering the constructs relevant to the
generated commands: a blank separates words, a single quote quotes every
character up to the closing quote, and a backslash outside quotes escapes the
following character.  An unterminated quote emits the partial word. -/
def shTok : List Char → ShMode → List (List Char)
  | [], m => shFinish m
  | c :: cs, .quoted t =>
    if c = '\'' then shTok cs (.norm (some t)) else shTok cs (.quoted (t ++ [c]))
  | c :: cs, .escaped cur => shTok cs (.norm (some (cur.getD [] ++ [c])))
  | c :: cs, .norm cur =>
    if c = ' ' then
      match cur with
      | none => shTok cs (.norm none)
      | some t => t :: shTok cs (.norm none)
    else if c = '\'' then shTok cs (.quoted (cur.getD []))
    else if c = '\\' then shTok cs (.escaped cur)
    else shTok cs (.norm (some (cur.getD [] ++ [c])))

/-- Split a command string into arguments the way a POSIX shell does. -/
def shellTokenize (s : String) : List String :=
  (shTok s.data (.norm none)).map String.mk

/-- Inside single quotes, the escaped form of a name followed by the closing
quote appends exactly the original name to the current word and returns to
normal mode. -/
theorem shTok_escaped (nm : List Char) :
    ∀ (t : List Char) (cs : List Char),
    shTok (escChars nm ++ '\'' :: cs) (.quoted t) = shTok cs (.norm (some (t ++ nm))) := by
  induction nm with
  | nil => intro t cs; simp [escChars, shTok]
  | cons c nm ih =>
    intro t cs
    by_cases hc : c = '\''
    · subst hc
      rw [escChars, if_pos rfl]
      simp only [List.append_assoc, List.cons_append, List.nil_append]
      simp [shTok, ih]
    · rw [escChars, if_neg hc]
      simp only [List.append_assoc, List.cons_append, List.nil_append]
      simp [shTok, hc, ih]

/-- C3: for every account name, including any name containing single-quote
characters, the generated remediation command, when tokenized by a
POSIX-compatible shell, yields the original unescaped name as a single (final)
argument: the name is wrapped in single quotes and each embedded single quote
is replaced by the close-escape-reopen sequence. -/
theorem reauthCommand_shell_roundtrip (name : String) :
    shellTokenize (reauthCommand name) = ["bun", "run", "cli", "--reauthenticate", name] := by
  have hdata : (reauthCommand name).data
      = "bun run cli --reauthenticate ".data ++ '\'' :: (escChars name.data ++ '\'' :: []) := by
    simp [reauthCommand, String.data_append, squote, escapeSingleQuotes]
  unfold shellTokenize
  rw [hdata]
  have hpre : "bun run cli --reauthenticate ".data
      = ['b', 'u', 'n', ' ', 'r', 'u', 'n', ' ', 'c', 'l', 'i', ' ',
         '-', '-', 'r', 'e', 'a', 'u', 't', 'h', 'e', 'n', 't', 'i', 'c', 'a', 't', 'e', ' '] := rfl
  rw [hpre]
  simp only [List.cons_append, List.nil_append]
  simp [shTok, shTok_escaped, shFinish]

-- ===== ACCOUNTS AND THE PROXY ENVIRONMENT =====

/-- The attributes of an upstream account relevant to proxy.ts: the display
name and the optional OAuth refresh token. -/
structure Account where
  name : String
  refresh_token : Option String
deriving DecidableEq

/-- Collaborator behaviour visible to `handleProxy` (proxy.ts lines 170-275).
The functions imported from `./handlers` are opaque external calls in the
source, so they appear here as fields: `pathValid` is whether
`validateProviderPath` returns rather than throwing a `ValidationError`,
`requestBody` is the buffer produced by `prepareRequestBody`, `modifiedBody`
is the replacement body returned by `interceptAndModifyRequest` (if any),
`accounts` is the candidate list returned by `selectAccountsForRequest`, and
`proxyWithAccount a i` is the outcome of the per-account proxy call on
account `a` at attempt index `i` (`none` models a null result). -/
structure Env (Resp : Type) where
  pathValid : Bool
  requestBody : Option Buf
  modifiedBody : Option Buf
  accounts : List Account
  proxyWithAccount : Account → Nat → Option Resp
  proxyUnauthenticated : Resp
  isRefreshTokenLikelyExpired : Account → Bool
  providerName : String

/-- `const finalBodyBuffer = modifiedBody || requestBodyBuffer` (line 189). -/
def finalBodyBuffer {Resp : Type} (env : Env Resp) : Option Buf :=
  match env.modifiedBody with
  | some b => some b
  | none => env.requestBody

/-- One readable stream produced by the body-stream factory (lines 190-193):
`allocId` models the identity of the freshly allocated `ReadableStream`
(each invocation of the factory allocates a new object), `content` the bytes
it yields. -/
structure BodyStream where
  allocId : Nat
  content : Buf
deriving DecidableEq

/-- `finalCreateBodyStream` (lines 190-193): returns `undefined` when there is
no final body, otherwise a fresh stream over `finalBodyBuffer`; the `allocId`
argument numbers the invocation, modelling that every call allocates a new
stream object over the same read-only buffer. -/
def finalCreateBodyStream (finalBody : Option Buf) (allocId : Nat) : Option BodyStream :=
  match finalBody with
  | none => none
  | some b => some ⟨allocId, b⟩

-- ===== TRACE EVENTS AND ERRORS =====

/-- The observable calls `handleProxy` makes, in order (its call trace). -/
inductive Event where
  | trackClientVersion
  | validateProviderPath
  | prepareRequestBody
  | interceptAndModifyRequest
  | createRequestMetadata
  | selectAccountsForRequest
  | proxyWithAccountCall (name : String) (body : Option Buf) (attemptIndex : Nat)
  | proxyUnauthenticatedCall (body : Option Buf)
deriving DecidableEq

/-- Errors thrown by `handleProxy`: the `ValidationError` propagated from
`validateProviderPath`, or a `ServiceUnavailableError` carrying its message
and the provider name (lines 266-275). -/
inductive ProxyError where
  | validation
  | serviceUnavailable (message : String) (providerName : String)
deriving DecidableEq

-- ===== ERROR MESSAGES =====

/-- JavaScript `Array.prototype.join` with separator `sep`. -/
def sepJoin (sep : String) : List String → String
  | [] => ""
  | [x] => x
  | x :: y :: xs => x ++ sep ++ sepJoin sep (y :: xs)

/-- Decimal digit characters of a natural number, most significant first;
models the JavaScript number-to-string conversion in template literals. -/
def natDigits (n : Nat) : List Char :=
  if h : n < 10 then [Char.ofNat (48 + n)]
  else natDigits (n / 10) ++ [Char.ofNat (48 + n % 10)]
decreasing_by exact Nat.div_lt_self (by omega) (by omega)

/-- Decimal string of a natural number (the `${accounts.length}` template). -/
def natToString (n : Nat) : String := String.mk (natDigits n)

/-- Modelled from the spec: `ERROR_MESSAGES.ALL_ACCOUNTS_FAILED` is imported
from `./handlers`, which is outside the sources under verification; per the
spec it is the generic all-accounts-failed text, with no remediation
content. -/
def ALL_ACCOUNTS_FAILED : String := "All accounts failed to proxy the request"

/-- The expired-OAuth `ServiceUnavailableError` message (lines 260-267). -/
def expiredTokensMessage (needsReauth : List Account) : String :=
  "All accounts failed to proxy the request. OAuth tokens have expired for accounts: "
    ++ sepJoin (", ") (needsReauth.map (fun a => a.name))
    ++ ".\n\nPlease re-authenticate:\n  "
    ++ sepJoin ("\n  ") (needsReauth.map (fun a => reauthCommand a.name))

/-- The generic `ServiceUnavailableError` message (line 273). -/
def genericFailureMessage (attempted : Nat) : String :=
  ALL_ACCOUNTS_FAILED ++ " (" ++ natToString attempted ++ " attempted)"

-- ===== THE ORCHESTRATOR =====

/-- The account loop of `handleProxy` (lines 233-248): attempts candidates in
order starting at attempt index `i`, recording one `proxyWithAccountCall`
event per attempt and stopping at the first response. -/
def tryAccounts {Resp : Type} (env : Env Resp) (body : Option Buf) :
    List Account → Nat → List Event × Option Resp
  | [], _ => ([], none)
  | a :: rest, i =>
    match env.proxyWithAccount a i with
    | some resp => ([.proxyWithAccountCall a.name body i], some resp)
    | none =>
      let r := tryAccounts env body rest (i + 1)
      (.proxyWithAccountCall a.name body i :: r.1, r.2)

/-- `handleProxy` (lines 170-275), returning its call trace together with its
outcome: the proxied response, or the error it throws. -/
def handleProxy {Resp : Type} (env : Env Resp) : List Event × Except ProxyError Resp :=
  if env.pathValid then
    let body := finalBodyBuffer env
    let pre : List Event :=
      [.trackClientVersion, .validateProviderPath, .prepareRequestBody,
       .interceptAndModifyRequest, .createRequestMetadata, .selectAccountsForRequest]
    if env.accounts.length = 0 then
      (pre ++ [.proxyUnauthenticatedCall body], .ok env.proxyUnauthenticated)
    else
      let r := tryAccounts env body env.accounts 0
      match r.2 with
      | some resp => (pre ++ r.1, .ok resp)
      | none =>
        let oauthAccounts := env.accounts.filter (fun a => a.refresh_token.isSome)
        let needsReauth := oauthAccounts.filter (fun a => env.isRefreshTokenLikelyExpired a)
        if 0 < needsReauth.length then
          (pre ++ r.1,
           .error (.serviceUnavailable (expiredTokensMessage needsReauth) env.providerName))
        else
          (pre ++ r.1,
           .error (.serviceUnavailable (genericFailureMessage env.accounts.length)
             env.providerName))
  else
    ([.trackClientVersion, .validateProviderPath], .error .validation)

-- ===== LOOP LEMMAS =====

/-- The attempt-call events of a trace, as (account name, body, attempt index)
triples, in order. -/
def attemptTrace : List Event → List (String × Option Buf × Nat)
  | [] => []
  | .proxyWithAccountCall n b i :: rest => (n, b, i) :: attemptTrace rest
  | .trackClientVersion :: rest => attemptTrace rest
  | .validateProviderPath :: rest => attemptTrace rest
  | .prepareRequestBody :: rest => attemptTrace rest
  | .interceptAndModifyRequest :: rest => attemptTrace rest
  | .createRequestMetadata :: rest => attemptTrace rest
  | .selectAccountsForRequest :: rest => attemptTrace rest
  | .proxyUnauthenticatedCall _ :: rest => attemptTrace rest

theorem attemptTrace_append (l1 l2 : List Event) :
    attemptTrace (l1 ++ l2) = attemptTrace l1 ++ attemptTrace l2 := by
  induction l1 with
  | nil => rfl
  | cons e rest ih => cases e <;> simp [attemptTrace, ih]

theorem attemptTrace_map_calls (body : Option Buf) (l : List (Nat × Account)) :
    attemptTrace (l.map (fun p => Event.proxyWithAccountCall p.2.name body p.1))
      = l.map (fun p => (p.2.name, body, p.1)) := by
  induction l with
  | nil => rfl
  | cons p rest ih => simp [attemptTrace, ih]

/-- If the candidates before position `i` all return null and the candidate at
`i` responds, the loop performs exactly the attempts `0..i`, in order, and
returns the response of candidate `i`. -/
theorem tryAccounts_first_success {Resp : Type} (env : Env Resp) (body : Option Buf) :
    ∀ (l : List Account) (i0 i : Nat) (hi : i < l.length) (r : Resp),
      (∀ j (hj : j < i), env.proxyWithAccount l[j] (i0 + j) = none) →
      env.proxyWithAccount l[i] (i0 + i) = some r →
      tryAccounts env body l i0 =
        (((l.take (i + 1)).enumFrom i0).map
          (fun p => Event.proxyWithAccountCall p.2.name body p.1), some r) := by
  intro l
  induction l with
  | nil => intro i0 i hi; exact absurd hi (by simp)
  | cons a rest ih =>
    intro i0 i hi r hfail hsucc
    match i with
    | 0 =>
      simp only [List.getElem_cons_zero, Nat.add_zero] at hsucc
      simp [tryAccounts, hsucc, List.enumFrom_cons]
    | i' + 1 =>
      have h0 : env.proxyWithAccount a i0 = none := by
        have := hfail 0 (by omega)
        simpa using this
      have hlen : i' < rest.length := by
        have := hi
        simp only [List.length_cons] at this
        omega
      have hfail' : ∀ j (hj : j < i'), env.proxyWithAccount rest[j] (i0 + 1 + j) = none := by
        intro j hj
        have := hfail (j + 1) (by omega)
        simpa [Nat.add_assoc, Nat.add_comm 1 j] using this
      have hsucc' : env.proxyWithAccount rest[i'] (i0 + 1 + i') = some r := by
        have := hsucc
        simpa [Nat.add_assoc, Nat.add_comm 1 i'] using this
      have hrec := ih (i0 + 1) i' hlen r hfail' hsucc'
      simp [tryAccounts, h0, hrec, List.enumFrom_cons]

/-- If every candidate returns null, the loop performs one attempt per
candidate, in order, and yields no response. -/
theorem tryAccounts_all_fail {Resp : Type} (env : Env Resp) (body : Option Buf) :
    ∀ (l : List Account) (i0 : Nat),
      (∀ j (hj : j < l.length), env.proxyWithAccount l[j] (i0 + j) = none) →
      tryAccounts env body l i0 =
        ((l.enumFrom i0).map (fun p => Event.proxyWithAccountCall p.2.name body p.1), none) := by
  intro l
  induction l with
  | nil => intro i0 _; rfl
  | cons a rest ih =>
    intro i0 hfail
    have h0 : env.proxyWithAccount a i0 = none := by
      have := hfail 0 (by simp)
      simpa using this
    have hfail' : ∀ j (hj : j < rest.length), env.proxyWithAccount rest[j] (i0 + 1 + j) = none := by
      intro j hj
      have := hfail (j + 1) (by simpa using Nat.succ_lt_succ hj)
      simpa [Nat.add_assoc, Nat.add_comm 1 j] using this
    simp [tryAccounts, h0, ih (i0 + 1) hfail', List.enumFrom_cons]

/-- Every event the loop records is an attempt call carrying the shared body. -/
theorem tryAccounts_events_body {Resp : Type} (env : Env Resp) (body : Option Buf) :
    ∀ (l : List Account) (i0 : Nat) (e : Event), e ∈ (tryAccounts env body l i0).1 →
      ∃ n i, e = Event.proxyWithAccountCall n body i := by
  intro l
  induction l with
  | nil => intro i0 e h; simp [tryAccounts] at h
  | cons a rest ih =>
    intro i0 e h
    rw [tryAccounts] at h
    match hp : env.proxyWithAccount a i0 with
    | some resp =>
      rw [hp] at h
      simp at h
      exact ⟨a.name, i0, h⟩
    | none =>
      rw [hp] at h
      simp at h
      rcases h with h | h
      · exact ⟨a.name, i0, h⟩
      · exact ih (i0 + 1) e h

-- ===== C1 =====

/-- C1: for every valid request with a non-empty candidate list, if the
candidate at zero-based position `i` (the `k = i + 1`-th candidate,
1-indexed) responds and every preceding candidate returns null, `handleProxy`
returns exactly that response, having invoked `proxyWithAccount` exactly
`i + 1` times, in list order, each call receiving the attempt's zero-based
ordinal as its `attemptIndex` argument and the shared final body. -/
theorem handleProxy_first_success {Resp : Type} (env : Env Resp) (i : Nat) (r : Resp)
    (hvalid : env.pathValid = true)
    (hi : i < env.accounts.length)
    (hfail : ∀ j (hj : j < i), env.proxyWithAccount env.accounts[j] j = none)
    (hsucc : env.proxyWithAccount env.accounts[i] i = some r) :
    (handleProxy env).2 = .ok r ∧
    attemptTrace (handleProxy env).1 =
      ((env.accounts.take (i + 1)).enum).map
        (fun p => (p.2.name, finalBodyBuffer env, p.1)) := by
  have htry := tryAccounts_first_success env (finalBodyBuffer env) env.accounts 0 i hi r
    (by intro j hj; simpa using hfail j hj) (by simpa using hsucc)
  have hne : ¬(env.accounts.length = 0) := by omega
  constructor
  · simp [handleProxy, hvalid, hne, htry]
  · simp [handleProxy, hvalid, hne, htry, attemptTrace_append, attemptTrace,
      attemptTrace_map_calls, List.enum]

-- ===== CREDENTIAL-EXPIRY CLASSIFIER =====

/-- `needsReauth` (lines 251-254): the accounts carrying a refresh token whose
token the external heuristic judges likely expired. -/
def needsReauth {Resp : Type} (env : Env Resp) : List Account :=
  (env.accounts.filter (fun a => a.refresh_token.isSome)).filter
    (fun a => env.isRefreshTokenLikelyExpired a)

/-- Any member of a JavaScript-style join occurs in it as a substring. -/
theorem sepJoin_contains (sep : String) : ∀ (l : List String) (x : String), x ∈ l →
    ∃ pre post, sepJoin sep l = pre ++ x ++ post := by
  intro l
  induction l with
  | nil => intro x h; simp at h
  | cons y l ih =>
    intro x h
    cases l with
    | nil =>
      simp at h
      subst h
      exact ⟨"", "", by simp [sepJoin, String.append_empty, String.empty_append]⟩
    | cons z l2 =>
      rcases List.mem_cons.mp h with h | h
      · subst h
        exact ⟨"", sep ++ sepJoin sep (z :: l2),
          by simp [sepJoin, String.append_assoc, String.empty_append]⟩
      · obtain ⟨pre, post, hp⟩ := ih x h
        exact ⟨y ++ sep ++ pre, post, by simp [sepJoin, hp, String.append_assoc]⟩

/-- The characters of a substring are characters of the whole string. -/
theorem substring_chars {s sub : String} (h : ∃ pre post, s = pre ++ sub ++ post) :
    ∀ c ∈ sub.data, c ∈ s.data := by
  obtain ⟨pre, post, hp⟩ := h
  intro c hc
  subst hp
  simp [String.data_append]
  right
  left
  exact hc

/-- A decimal digit character for each residue below ten. -/
theorem ofNat_digit_mem (m : Nat) (hm : m < 10) :
    Char.ofNat (48 + m) ∈ ['0', '1', '2', '3', '4', '5', '6', '7', '8', '9'] := by
  interval_cases m <;> decide

/-- Every character produced by `natDigits` is a decimal digit. -/
theorem natDigits_mem_digit (n : Nat) :
    ∀ c ∈ natDigits n, c ∈ ['0', '1', '2', '3', '4', '5', '6', '7', '8', '9'] := by
  induction n using Nat.strong_induction_on with
  | _ n ih =>
    by_cases h : n < 10
    · rw [natDigits, dif_pos h]
      intro c hc
      simp at hc
      subst hc
      exact ofNat_digit_mem n h
    · rw [natDigits, dif_neg h]
      intro c hc
      rcases List.mem_append.mp hc with hc | hc
      · exact ih (n / 10) (Nat.div_lt_self (by omega) (by omega)) c hc
      · simp at hc
        subst hc
        exact ofNat_digit_mem (n % 10) (Nat.mod_lt _ (by omega))

/-- The generic failure message contains no dash character. -/
theorem dash_not_in_generic (n : Nat) : '-' ∉ (genericFailureMessage n).data := by
  intro h
  simp only [genericFailureMessage, natToString, ALL_ACCOUNTS_FAILED,
    String.data_append, List.mem_append] at h
  rcases h with ((h | h) | h) | h
  · exact absurd h (by decide)
  · exact absurd h (by decide)
  · have := natDigits_mem_digit n '-' h
    exact absurd this (by decide)
  · exact absurd h (by decide)

/-- Every remediation command contains a dash character. -/
theorem dash_in_reauthCommand (nm : String) : '-' ∈ (reauthCommand nm).data := by
  simp only [reauthCommand, String.data_append, List.mem_append]
  left
  left
  left
  decide

/-- When every attempt fails, `handleProxy` reaches the classifier: it records
one attempt per candidate and throws the expired-token error or the generic
error according to whether `needsReauth` is non-empty. -/
theorem handleProxy_exhausted {Resp : Type} (env : Env Resp)
    (hvalid : env.pathValid = true) (hne : env.accounts ≠ [])
    (hfail : ∀ j (hj : j < env.accounts.length),
      env.proxyWithAccount env.accounts[j] j = none) :
    handleProxy env =
      ([.trackClientVersion, .validateProviderPath, .prepareRequestBody,
        .interceptAndModifyRequest, .createRequestMetadata, .selectAccountsForRequest] ++
        ((env.accounts.enumFrom 0).map
          (fun p => Event.proxyWithAccountCall p.2.name (finalBodyBuffer env) p.1)),
       if 0 < (needsReauth env).length then
         .error (.serviceUnavailable (expiredTokensMessage (needsReauth env)) env.providerName)
       else
         .error (.serviceUnavailable (genericFailureMessage env.accounts.length)
           env.providerName)) := by
  have htry := tryAccounts_all_fail env (finalBodyBuffer env) env.accounts 0
    (by intro j hj; simpa using hfail j hj)
  have hlen : ¬(env.accounts.length = 0) := by
    simpa [List.length_eq_zero] using hne
  simp [handleProxy, hvalid, hlen, htry, needsReauth]
  split <;> simp [*]

-- ===== C4 =====

/-- C4: for every valid request whose candidate list is non-empty, where every
attempt returns null and at least one account both carries a refresh token and
is judged likely expired, `handleProxy` throws a `ServiceUnavailableError`
whose message is built from exactly the `needsReauth` accounts: it names every
affected account, contains one remediation command per affected account, every
listed account carries a refresh token and is judged expired, and every
account with a refresh token judged expired is listed. -/
theorem handleProxy_expired_reauth {Resp : Type} (env : Env Resp)
    (hvalid : env.pathValid = true)
    (hne : env.accounts ≠ [])
    (hfail : ∀ j (hj : j < env.accounts.length),
      env.proxyWithAccount env.accounts[j] j = none)
    (hsome : needsReauth env ≠ []) :
    (handleProxy env).2 = .error (.serviceUnavailable
      (expiredTokensMessage (needsReauth env)) env.providerName) ∧
    (∀ a ∈ needsReauth env,
      a.refresh_token.isSome = true ∧ env.isRefreshTokenLikelyExpired a = true ∧
      (∃ pre post, expiredTokensMessage (needsReauth env) = pre ++ a.name ++ post) ∧
      (∃ pre post, expiredTokensMessage (needsReauth env)
        = pre ++ reauthCommand a.name ++ post)) ∧
    (∀ a ∈ env.accounts, a.refresh_token.isSome = true →
      env.isRefreshTokenLikelyExpired a = true → a ∈ needsReauth env) := by
  have hx := handleProxy_exhausted env hvalid hne hfail
  have hpos : 0 < (needsReauth env).length := List.length_pos.mpr hsome
  refine ⟨?_, ?_, ?_⟩
  · rw [hx]
    simp [hpos]
  · intro a ha
    have hmem := List.mem_filter.mp ha
    have hmem2 := List.mem_filter.mp hmem.1
    refine ⟨hmem2.2, hmem.2, ?_, ?_⟩
    · have hn : a.name ∈ (needsReauth env).map (fun a => a.name) :=
        List.mem_map_of_mem _ ha
      obtain ⟨pre, post, hp⟩ := sepJoin_contains (", ") _ a.name hn
      refine ⟨"All accounts failed to proxy the request. OAuth tokens have expired for accounts: "
        ++ pre, post ++ (".\n\nPlease re-authenticate:\n  "
        ++ sepJoin ("\n  ") ((needsReauth env).map (fun a => reauthCommand a.name))), ?_⟩
      simp [expiredTokensMessage, hp, String.append_assoc]
    · have hn : reauthCommand a.name
          ∈ (needsReauth env).map (fun a => reauthCommand a.name) :=
        List.mem_map_of_mem _ ha
      obtain ⟨pre, post, hp⟩ := sepJoin_contains ("\n  ") _ _ hn
      refine ⟨"All accounts failed to proxy the request. OAuth tokens have expired for accounts: "
        ++ sepJoin (", ") ((needsReauth env).map (fun a => a.name))
        ++ ".\n\nPlease re-authenticate:\n  " ++ pre, post, ?_⟩
      simp [expiredTokensMessage, hp, String.append_assoc]
  · intro a ha h1 h2
    exact List.mem_filter.mpr ⟨List.mem_filter.mpr ⟨ha, h1⟩, h2⟩

-- ===== C6 =====

/-- C6: for every valid request whose non-empty candidate list of length `N`
is exhausted with every attempt returning null and no account judged as
needing re-authentication, `handleProxy` throws a `ServiceUnavailableError`
that carries the provider name, whose message contains the literal attempted
count `N` and contains no remediation command. -/
theorem handleProxy_generic_failure {Resp : Type} (env : Env Resp)
    (hvalid : env.pathValid = true)
    (hne : env.accounts ≠ [])
    (hfail : ∀ j (hj : j < env.accounts.length),
      env.proxyWithAccount env.accounts[j] j = none)
    (hnone : needsReauth env = []) :
    (handleProxy env).2 = .error (.serviceUnavailable
      (genericFailureMessage env.accounts.length) env.providerName) ∧
    (∃ pre post, genericFailureMessage env.accounts.length
      = pre ++ natToString env.accounts.length ++ post) ∧
    (∀ nm, ¬ ∃ pre post, genericFailureMessage env.accounts.length
      = pre ++ reauthCommand nm ++ post) := by
  have hx := handleProxy_exhausted env hvalid hne hfail
  refine ⟨?_, ?_, ?_⟩
  · rw [hx]
    simp [hnone]
  · exact ⟨ALL_ACCOUNTS_FAILED ++ " (", " attempted)", rfl⟩
  · intro nm h
    have := substring_chars h '-' (dash_in_reauthCommand nm)
    exact dash_not_in_generic env.accounts.length this

-- ===== TRACE SHAPE =====

/-- An attempt-call event. -/
def Event.isAccountCall : Event → Bool
  | .proxyWithAccountCall _ _ _ => true
  | _ => false

/-- An unauthenticated-fallback call event. -/
def Event.isUnauthCall : Event → Bool
  | .proxyUnauthenticatedCall _ => true
  | _ => false

/-- Every `handleProxy` trace is either the validation-failure prefix or the
full fixed step prefix followed only by proxy calls carrying the final body. -/
theorem handleProxy_trace_shape {Resp : Type} (env : Env Resp) :
    (env.pathValid = false ∧
      (handleProxy env).1 = [.trackClientVersion, .validateProviderPath]) ∨
    (env.pathValid = true ∧
      ∃ tail, (handleProxy env).1 =
        [.trackClientVersion, .validateProviderPath, .prepareRequestBody,
         .interceptAndModifyRequest, .createRequestMetadata, .selectAccountsForRequest] ++ tail ∧
        ∀ e ∈ tail, (∃ n i, e = .proxyWithAccountCall n (finalBodyBuffer env) i) ∨
          e = .proxyUnauthenticatedCall (finalBodyBuffer env)) := by
  by_cases hv : env.pathValid
  · right
    refine ⟨hv, ?_⟩
    by_cases hlen : env.accounts.length = 0
    · refine ⟨[.proxyUnauthenticatedCall (finalBodyBuffer env)], ?_, ?_⟩
      · simp [handleProxy, hv, hlen]
      · intro e he
        simp at he
        right
        exact he
    · refine ⟨(tryAccounts env (finalBodyBuffer env) env.accounts 0).1, ?_, ?_⟩
      · rcases hm : (tryAccounts env (finalBodyBuffer env) env.accounts 0).2 with _ | resp
        · simp only [handleProxy, hv, if_true, hlen, if_false]
          simp [hm]
          split <;> simp
        · simp only [handleProxy, hv, if_true, hlen, if_false]
          simp [hm]
      · intro e he
        obtain ⟨n, i, hni⟩ := tryAccounts_events_body env (finalBodyBuffer env)
          env.accounts 0 e he
        exact Or.inl ⟨n, i, hni⟩
  · left
    refine ⟨by simpa using hv, ?_⟩
    simp only [Bool.not_eq_true] at hv
    simp [handleProxy, hv]

-- ===== C2 =====

/-- C2: for every request with a body, the byte content handed to every
account attempt and to the unauthenticated fallback equals the single final
body: the interception replacement whenever one was returned (never the
original in that case), and the originally buffered content otherwise — never
a mix; and the stream factory yields, at every invocation, a fresh stream
object (distinct allocation identity) over that same content, so one
attempt's consumption cannot affect another. -/
theorem handleProxy_body_consistency {Resp : Type} (env : Env Resp) (orig : Buf)
    (hbody : env.requestBody = some orig) :
    (∀ n b i, Event.proxyWithAccountCall n b i ∈ (handleProxy env).1 →
      b = finalBodyBuffer env) ∧
    (∀ b, Event.proxyUnauthenticatedCall b ∈ (handleProxy env).1 →
      b = finalBodyBuffer env) ∧
    (∀ m, env.modifiedBody = some m → finalBodyBuffer env = some m) ∧
    (env.modifiedBody = none → finalBodyBuffer env = some orig) ∧
    (∀ j, (finalCreateBodyStream (finalBodyBuffer env) j).map BodyStream.content
      = finalBodyBuffer env) ∧
    (∀ j k s t, j ≠ k → finalCreateBodyStream (finalBodyBuffer env) j = some s →
      finalCreateBodyStream (finalBodyBuffer env) k = some t →
      s.allocId ≠ t.allocId) := by
  have hshape := handleProxy_trace_shape env
  have hcall : ∀ n b i, Event.proxyWithAccountCall n b i ∈ (handleProxy env).1 →
      b = finalBodyBuffer env := by
    intro n b i hmem
    rcases hshape with ⟨_, htr⟩ | ⟨_, tail, htr, htail⟩
    · rw [htr] at hmem
      simp at hmem
    · rw [htr] at hmem
      rcases List.mem_append.mp hmem with h | h
      · simp at h
      · rcases htail _ h with ⟨n2, i2, he⟩ | he
        · cases he
          rfl
        · cases he
  have hunauth : ∀ b, Event.proxyUnauthenticatedCall b ∈ (handleProxy env).1 →
      b = finalBodyBuffer env := by
    intro b hmem
    rcases hshape with ⟨_, htr⟩ | ⟨_, tail, htr, htail⟩
    · rw [htr] at hmem
      simp at hmem
    · rw [htr] at hmem
      rcases List.mem_append.mp hmem with h | h
      · simp at h
      · rcases htail _ h with ⟨n2, i2, he⟩ | he
        · cases he
        · cases he
          rfl
  refine ⟨hcall, hunauth, ?_, ?_, ?_, ?_⟩
  · intro m hm
    simp [finalBodyBuffer, hm]
  · intro hm
    simp [finalBodyBuffer, hm, hbody]
  · intro j
    cases hf : finalBodyBuffer env <;> simp [finalCreateBodyStream, hf]
  · intro j k s t hjk hs ht
    cases hf : finalBodyBuffer env <;> rw [hf] at hs ht <;>
      simp [finalCreateBodyStream] at hs ht
    rw [← hs, ← ht]
    simpa using hjk

-- ===== C5 =====

/-- C5: for every valid request where account selection returns the empty
list, `handleProxy` calls `proxyUnauthenticated` exactly once — with the same
final body used for account attempts — never calls `proxyWithAccount`, and
returns the unauthenticated response; the empty list is not an error. -/
theorem handleProxy_empty_accounts {Resp : Type} (env : Env Resp)
    (hvalid : env.pathValid = true) (hempty : env.accounts = []) :
    handleProxy env =
      ([.trackClientVersion, .validateProviderPath, .prepareRequestBody,
        .interceptAndModifyRequest, .createRequestMetadata, .selectAccountsForRequest,
        .proxyUnauthenticatedCall (finalBodyBuffer env)], .ok env.proxyUnauthenticated) ∧
    (handleProxy env).1.countP Event.isUnauthCall = 1 ∧
    (handleProxy env).1.countP Event.isAccountCall = 0 := by
  have h1 : handleProxy env =
      ([.trackClientVersion, .validateProviderPath, .prepareRequestBody,
        .interceptAndModifyRequest, .createRequestMetadata, .selectAccountsForRequest,
        .proxyUnauthenticatedCall (finalBodyBuffer env)], .ok env.proxyUnauthenticated) := by
    simp [handleProxy, hvalid, hempty]
  refine ⟨h1, ?_, ?_⟩ <;>
    simp [h1, List.countP_cons, Event.isUnauthCall, Event.isAccountCall]

-- ===== C10 =====

/-- C10: `handleProxy` performs path validation before any body processing:
when `validateProviderPath` throws, the `ValidationError` propagates unchanged
and none of `prepareRequestBody`, `interceptAndModifyRequest`,
`createRequestMetadata`, `selectAccountsForRequest`, `proxyWithAccount`,
`proxyUnauthenticated` are invoked (the trace stops at the validation event);
on the valid path the trace starts with the fixed sequence body preparation,
interception, metadata creation, account selection — so interception always
precedes metadata creation and selection — followed only by proxy calls. -/
theorem handleProxy_validation_precedes {Resp : Type} (env : Env Resp) :
    (env.pathValid = false →
      handleProxy env =
        ([.trackClientVersion, .validateProviderPath], .error .validation)) ∧
    (env.pathValid = true →
      ∃ tail, (handleProxy env).1 =
        [.trackClientVersion, .validateProviderPath, .prepareRequestBody,
         .interceptAndModifyRequest, .createRequestMetadata, .selectAccountsForRequest] ++ tail ∧
        ∀ e ∈ tail, Event.isAccountCall e = true ∨ Event.isUnauthCall e = true) := by
  constructor
  · intro hv
    simp [handleProxy, hv]
  · intro hv
    rcases handleProxy_trace_shape env with ⟨hfalse, _⟩ | ⟨_, tail, htr, htail⟩
    · rw [hv] at hfalse
      cases hfalse
    · refine ⟨tail, htr, ?_⟩
      intro e he
      rcases htail e he with ⟨n, i, hni⟩ | hni <;> subst hni
      · left
        rfl
      · right
        rfl

-- ===== TELEMETRY WORKER LIFECYCLE (proxy.ts lines 27-147) =====

/-- Process-wide mutable state of the worker channel, with the bookkeeping
the embedding needs: `usageWorkerInstance` and `shutdownTimerId` are the two
module-level variables (lines 30-31); `live` tracks which created workers
have not crashed or been terminated (JavaScript object identity modelled by
allocation numbers); `pendingTimers` tracks scheduled, not yet fired or
cancelled `setTimeout` timers; `nextWorkerId` / `nextTimerId` allocate fresh
identities. -/
structure WState where
  usageWorkerInstance : Option Nat
  shutdownTimerId : Option Nat
  live : List Nat
  pendingTimers : List Nat
  nextWorkerId : Nat
  nextTimerId : Nat
deriving DecidableEq

/-- Module load: no worker, no timer. -/
def initWState : WState := ⟨none, none, [], [], 0, 0⟩

/-- `getUsageWorker` (lines 37-111): returns the existing instance, or
creates a fresh worker — a new allocation — registers its observers and
stores it in the singleton.  The choice between embedded and development
worker code (lines 41-61) is an external packaging concern that does not
affect the state transition. -/
def getUsageWorker (s : WState) : Nat × WState :=
  match s.usageWorkerInstance with
  | some w => (w, s)
  | none =>
      (s.nextWorkerId,
       { s with usageWorkerInstance := some s.nextWorkerId,
                live := s.nextWorkerId :: s.live,
                nextWorkerId := s.nextWorkerId + 1 })

/-- The `onerror` observer (lines 88-104): the erroring worker is dead and
the singleton is reset to absent so the next acquisition recreates it. -/
def workerOnError (s : WState) : WState :=
  match s.usageWorkerInstance with
  | none => s
  | some w => { s with usageWorkerInstance := none, live := s.live.erase w }

/-- `clearTimeout(shutdownTimerId); shutdownTimerId = null` (lines 119-122). -/
def clearShutdownTimer (s : WState) : WState :=
  match s.shutdownTimerId with
  | none => s
  | some t => { s with pendingTimers := s.pendingTimers.erase t, shutdownTimerId := none }

/-- `usageWorkerInstance.postMessage(shutdownMsg)` (line 127): succeeds on a
live worker, throws when the worker is already dead. -/
def postMessageToWorker (s : WState) (w : Nat) : Except String Unit :=
  if w ∈ s.live then .ok () else .error ("Worker already terminated")

/-- `usageWorkerInstance.terminate()` (line 138): stops a live worker,
throws when the worker is already dead. -/
def forceTerminateWorker (s : WState) (w : Nat) : Except String (List Nat) :=
  if w ∈ s.live then .ok (s.live.erase w) else .error ("Worker already terminated")

/-- `terminateUsageWorker` (lines 116-147): no-op without a handle; otherwise
cancel any pending forced-termination timer, send the shutdown message — on
send failure clear the singleton and return — and on success schedule a
fresh forced-termination timer for the grace window.  The source's
`try`/`catch` is the `match` on the `Except` result: no fault escapes this
boundary, which is why the function is total into `WState`. -/
def terminateUsageWorker (s : WState) : WState :=
  match s.usageWorkerInstance with
  | none => s
  | some w =>
      let s1 := clearShutdownTimer s
      match postMessageToWorker s1 w with
      | .error _ => { s1 with usageWorkerInstance := none }
      | .ok _ =>
          { s1 with shutdownTimerId := some s1.nextTimerId,
                    pendingTimers := s1.nextTimerId :: s1.pendingTimers,
                    nextTimerId := s1.nextTimerId + 1 }

/-- The forced-termination timer callback (lines 135-145): the timer fires
(leaving the pending set), and if a handle is still set it is forcibly
stopped — any error from the stop is ignored — and the singleton and stored
timer id are cleared. -/
def fireShutdownTimer (s : WState) : WState :=
  match s.shutdownTimerId with
  | none => s
  | some t =>
      let s1 : WState := { s with pendingTimers := s.pendingTimers.erase t,
                                  shutdownTimerId := none }
      match s1.usageWorkerInstance with
      | none => s1
      | some w =>
          match forceTerminateWorker s1 w with
          | .ok live2 => { s1 with usageWorkerInstance := none, live := live2 }
          | .error _ => { s1 with usageWorkerInstance := none }

/-- External stimuli driving the worker channel. -/
inductive WEvent where
  | acquire
  | workerError
  | terminate
  | timerFire
deriving DecidableEq

/-- One channel step. -/
def wStep (s : WState) : WEvent → WState
  | .acquire => (getUsageWorker s).2
  | .workerError => workerOnError s
  | .terminate => terminateUsageWorker s
  | .timerFire => fireShutdownTimer s

/-- The channel state after a stimulus sequence from process start. -/
def runEvents (evs : List WEvent) : WState := evs.foldl wStep initWState

/-- Channel invariant: only the worker stored in the singleton can be live,
at most one worker is live, allocated worker ids are below the allocation
counter, and the pending timers are exactly the stored shutdown timer. -/
def WInv (s : WState) : Prop :=
  (∀ w ∈ s.live, s.usageWorkerInstance = some w) ∧
  s.live.length ≤ 1 ∧
  (∀ w ∈ s.live, w < s.nextWorkerId) ∧
  (∀ w ∈ s.usageWorkerInstance.toList, w < s.nextWorkerId) ∧
  s.pendingTimers = s.shutdownTimerId.toList

instance (s : WState) : Decidable (WInv s) := by
  unfold WInv
  infer_instance

/-- Under the invariant the live set is empty or the stored singleton. -/
theorem winv_live_shape {s : WState} (h : WInv s) :
    s.live = [] ∨ ∃ w, s.live = [w] ∧ s.usageWorkerInstance = some w := by
  obtain ⟨h1, h2, _⟩ := h
  cases hl : s.live with
  | nil => exact Or.inl rfl
  | cons a l =>
    cases l with
    | nil => exact Or.inr ⟨a, rfl, h1 a (by rw [hl]; exact List.mem_cons_self a [])⟩
    | cons b l2 =>
      rw [hl] at h2
      simp at h2

/-- Cancelling the stored timer empties the pending set (under the timer part
of the invariant). -/
theorem clearShutdownTimer_spec {s : WState}
    (h5 : s.pendingTimers = s.shutdownTimerId.toList) :
    clearShutdownTimer s = { s with pendingTimers := [], shutdownTimerId := none } := by
  obtain ⟨i, t, l, p, nw, nt⟩ := s
  cases t with
  | none =>
    simp only [Option.toList] at h5
    simp [clearShutdownTimer, h5]
  | some t0 =>
    simp only [Option.toList] at h5
    simp [clearShutdownTimer, h5]

/-- The channel invariant is preserved by every step. -/
theorem winv_step {s : WState} (h : WInv s) (e : WEvent) : WInv (wStep s e) := by
  have hshape := winv_live_shape h
  obtain ⟨h1, h2, h3, h4, h5⟩ := h
  cases e
  case acquire =>
    simp only [wStep, getUsageWorker]
    cases hi : s.usageWorkerInstance with
    | some w => exact ⟨h1, h2, h3, h4, h5⟩
    | none =>
      dsimp only
      have hl : s.live = [] := by
        rcases hshape with hl | ⟨v, hl, hv⟩
        · exact hl
        · rw [hi] at hv
          cases hv
      refine ⟨?_, ?_, ?_, ?_, ?_⟩
      · intro w hw
        simp [hl] at hw
        simp [hw]
      · simp [hl]
      · intro w hw
        simp [hl] at hw
        simp [hw]
      · intro w hw
        simp at hw
        simp [hw]
      · exact h5
  case workerError =>
    simp only [wStep, workerOnError]
    cases hi : s.usageWorkerInstance with
    | none => exact ⟨h1, h2, h3, h4, h5⟩
    | some w =>
      dsimp only
      have hl : s.live.erase w = [] := by
        rcases hshape with hl | ⟨v, hl, hv⟩
        · rw [hl]
          rfl
        · rw [hi] at hv
          injection hv with hv
          subst hv
          rw [hl]
          simp
      refine ⟨?_, ?_, ?_, ?_, ?_⟩
      · intro u hu
        rw [hl] at hu
        cases hu
      · simp [hl]
      · intro u hu
        rw [hl] at hu
        cases hu
      · intro u hu
        cases hu
      · exact h5
  case terminate =>
    simp only [wStep, terminateUsageWorker]
    cases hi : s.usageWorkerInstance with
    | none => exact ⟨h1, h2, h3, h4, h5⟩
    | some w =>
      dsimp only
      rw [clearShutdownTimer_spec h5]
      simp only [postMessageToWorker]
      by_cases hw : w ∈ s.live
      · simp only [hw, if_pos, if_true]
        refine ⟨?_, h2, h3, ?_, ?_⟩
        · intro u hu
          exact h1 u hu
        · intro u hu
          exact h4 u hu
        · simp
      · simp only [hw, if_neg, if_false]
        have hl : s.live = [] := by
          rcases hshape with hl | ⟨v, hl, hv⟩
          · exact hl
          · rw [hi] at hv
            injection hv with hv
            subst hv
            rw [hl] at hw
            simp at hw
        refine ⟨?_, ?_, ?_, ?_, ?_⟩
        · intro u hu
          rw [hl] at hu
          cases hu
        · simp [hl]
        · intro u hu
          rw [hl] at hu
          cases hu
        · intro u hu
          cases hu
        · simp
  case timerFire =>
    simp only [wStep, fireShutdownTimer]
    cases ht : s.shutdownTimerId with
    | none => exact ⟨h1, h2, h3, h4, h5⟩
    | some t =>
      dsimp only
      have hp : s.pendingTimers.erase t = [] := by
        rw [h5, ht]
        simp [Option.toList]
      cases hi : s.usageWorkerInstance with
      | none =>
        dsimp only
        refine ⟨?_, h2, h3, ?_, ?_⟩
        · intro u hu
          rw [h1 u hu] at hi
          cases hi
        · intro u hu
          rw [hi] at h4
          cases hu
        · simp [hp]
      | some w =>
        dsimp only
        simp only [forceTerminateWorker]
        by_cases hw : w ∈ s.live
        · simp only [hw, if_pos, if_true]
          have hl : s.live.erase w = [] := by
            rcases hshape with hl | ⟨v, hl, hv⟩
            · rw [hl]
              rfl
            · rw [hi] at hv
              injection hv with hv
              subst hv
              rw [hl]
              simp
          refine ⟨?_, ?_, ?_, ?_, ?_⟩
          · intro u hu
            rw [hl] at hu
            cases hu
          · simp [hl]
          · intro u hu
            rw [hl] at hu
            cases hu
          · intro u hu
            cases hu
          · simp [hp]
        · simp only [hw, if_neg, if_false]
          have hl : s.live = [] := by
            rcases hshape with hl | ⟨v, hl, hv⟩
            · exact hl
            · rw [hi] at hv
              injection hv with hv
              subst hv
              rw [hl] at hw
              simp at hw
          refine ⟨?_, ?_, ?_, ?_, ?_⟩
          · intro u hu
            rw [hl] at hu
            cases hu
          · simp [hl]
          · intro u hu
            rw [hl] at hu
            cases hu
          · intro u hu
            cases hu
          · simp [hp]

/-- The channel invariant holds at every reachable state. -/
theorem winv_run (evs : List WEvent) : WInv (runEvents evs) := by
  have hinit : WInv initWState := by
    refine ⟨?_, ?_, ?_, ?_, ?_⟩ <;> simp [initWState]
  rw [runEvents]
  generalize initWState = s0 at hinit ⊢
  induction evs generalizing s0 with
  | nil => exact hinit
  | cons e evs ih =>
    rw [List.foldl_cons]
    exact ih (wStep s0 e) (winv_step hinit e)

/-- Cancelling the stored timer changes no other field and leaves no stored
timer. -/
theorem clearShutdownTimer_fields (s : WState) :
    (clearShutdownTimer s).usageWorkerInstance = s.usageWorkerInstance ∧
    (clearShutdownTimer s).live = s.live ∧
    (clearShutdownTimer s).shutdownTimerId = none ∧
    (clearShutdownTimer s).nextTimerId = s.nextTimerId ∧
    (clearShutdownTimer s).nextWorkerId = s.nextWorkerId := by
  cases ht : s.shutdownTimerId <;> simp [clearShutdownTimer, ht]

-- ===== C7 =====

/-- C7: when the worker reports an error, the `onerror` observer resets the
singleton handle to absent, so the next `getUsageWorker` call creates and
returns a fresh worker instance — an allocation distinct from the dead
worker — and stores it as the new singleton; and at every reachable state at
most one live worker handle exists process-wide. -/
theorem getUsageWorker_crash_recovery :
    (∀ s w, WInv s → s.usageWorkerInstance = some w →
      (workerOnError s).usageWorkerInstance = none ∧
      (getUsageWorker (workerOnError s)).1 = s.nextWorkerId ∧
      (getUsageWorker (workerOnError s)).1 ≠ w ∧
      (getUsageWorker (workerOnError s)).2.usageWorkerInstance
        = some s.nextWorkerId) ∧
    (∀ evs, (runEvents evs).live.length ≤ 1) := by
  refine ⟨?_, ?_⟩
  · intro s w hinv hi
    have hw : w < s.nextWorkerId := hinv.2.2.2.1 w (by rw [hi]; simp)
    have h2 : workerOnError s
        = { s with usageWorkerInstance := none, live := s.live.erase w } := by
      simp [workerOnError, hi]
    refine ⟨?_, ?_, ?_, ?_⟩
    · rw [h2]
    · rw [h2]
      simp [getUsageWorker]
    · rw [h2]
      simp [getUsageWorker]
      omega
    · rw [h2]
      simp [getUsageWorker]
  · intro evs
    exact (winv_run evs).2.1

-- ===== C8 =====

/-- Observable channel state: the singleton handle, whether a shutdown timer
is stored, how many timers are pending, and the live workers. -/
def wObs (s : WState) : Option Nat × Bool × Nat × List Nat :=
  (s.usageWorkerInstance, s.shutdownTimerId.isSome, s.pendingTimers.length, s.live)

/-- C8: `terminateUsageWorker` is idempotent on the observable state: a
second immediate call leaves the singleton handle, the timer flag, the number
of pending timers and the live set exactly as one call does, because it first
cancels the previously scheduled forced-termination timer; calling it with no
handle is a no-op, and at every reachable state at most one forced-termination
timer is pending. -/
theorem terminateUsageWorker_idempotent :
    (∀ s, wObs (terminateUsageWorker (terminateUsageWorker s))
      = wObs (terminateUsageWorker s)) ∧
    (∀ s, s.usageWorkerInstance = none → terminateUsageWorker s = s) ∧
    (∀ evs, (runEvents evs).pendingTimers.length ≤ 1) := by
  refine ⟨?_, ?_, ?_⟩
  · intro s
    obtain ⟨i, t, l, p, nw, nt⟩ := s
    cases i with
    | none => rfl
    | some w =>
      cases t with
      | none =>
        by_cases hw : w ∈ l
        · simp [terminateUsageWorker, clearShutdownTimer, postMessageToWorker, hw, wObs,
            List.erase_cons_head]
        · simp [terminateUsageWorker, clearShutdownTimer, postMessageToWorker, hw, wObs]
      | some t0 =>
        by_cases hw : w ∈ l
        · simp [terminateUsageWorker, clearShutdownTimer, postMessageToWorker, hw, wObs,
            List.erase_cons_head]
        · simp [terminateUsageWorker, clearShutdownTimer, postMessageToWorker, hw, wObs]
  · intro s h
    simp [terminateUsageWorker, h]
  · intro evs
    obtain ⟨_, _, _, _, h5⟩ := winv_run evs
    rw [h5]
    cases (runEvents evs).shutdownTimerId <;> simp

-- ===== C9 =====

/-- C9: if sending the shutdown message fails (the worker is already dead),
`terminateUsageWorker` clears the singleton immediately, schedules no
forced-termination timer (the stored timer is gone, the timer allocator is
untouched and, under the channel invariant, no timer remains pending) and
returns normally; and the timer callback also returns normally with the
singleton and timer cleared even when the forced stop itself faults.  Both
faulting primitives return `Except` values that the definitions match on, so
no fault escapes either boundary. -/
theorem terminateUsageWorker_sendfail_safe :
    (∀ s w, s.usageWorkerInstance = some w → w ∉ s.live →
      terminateUsageWorker s
        = { clearShutdownTimer s with usageWorkerInstance := none } ∧
      (terminateUsageWorker s).shutdownTimerId = none ∧
      (terminateUsageWorker s).nextTimerId = s.nextTimerId ∧
      (WInv s → (terminateUsageWorker s).pendingTimers = [])) ∧
    (∀ s t w, s.shutdownTimerId = some t → s.usageWorkerInstance = some w →
      w ∉ s.live →
      (fireShutdownTimer s).usageWorkerInstance = none ∧
      (fireShutdownTimer s).shutdownTimerId = none) := by
  refine ⟨?_, ?_⟩
  · intro s w hi hw
    have hf := clearShutdownTimer_fields s
    have hpost : postMessageToWorker (clearShutdownTimer s) w
        = .error ("Worker already terminated") := by
      simp [postMessageToWorker, hf.2.1, hw]
    have hterm : terminateUsageWorker s
        = { clearShutdownTimer s with usageWorkerInstance := none } := by
      simp [terminateUsageWorker, hi, hpost]
    refine ⟨hterm, ?_, ?_, ?_⟩
    · rw [hterm]
      exact hf.2.2.1
    · rw [hterm]
      exact hf.2.2.2.1
    · intro hinv
      rw [hterm, clearShutdownTimer_spec hinv.2.2.2.2]
  · intro s t w ht hi hw
    constructor <;> simp [fireShutdownTimer, ht, hi, forceTerminateWorker, hw]

-- ===== CONCRETE ENVIRONMENTS AND STATES FOR THE WITNESSES =====

/-- Two candidates; the first returns null, the second responds with 7. -/
def env1 : Env Nat :=
  ⟨true, some [1, 2], none, [⟨"a1", none⟩, ⟨"a2", some ("rt")⟩],
   fun a _ => if a.name = "a2" then some 7 else none, 99, fun _ => true, "anthropic"⟩

/-- A request whose path validation fails. -/
def envInvalid : Env Nat :=
  ⟨false, some [1], none, [⟨"a1", none⟩], fun _ _ => none, 0, fun _ => false, "anthropic"⟩

/-- Selection returns the empty candidate list; interception replaced the
body. -/
def envEmpty : Env Nat :=
  ⟨true, some [1], some [2, 3], [], fun _ _ => none, 42, fun _ => false, "anthropic"⟩

/-- Three candidates, all failing; two carry refresh tokens judged expired. -/
def envReauth : Env Nat :=
  ⟨true, some [1], none,
   [⟨"alice", some ("r1")⟩, ⟨"bob", none⟩, ⟨"carol", some ("r2")⟩],
   fun _ _ => none, 0, fun _ => true, "anthropic"⟩

/-- Two candidates without refresh tokens, all failing. -/
def envGeneric : Env Nat :=
  ⟨true, some [1], none, [⟨"a1", none⟩, ⟨"a2", none⟩],
   fun _ _ => none, 0, fun _ => false, "anthropic"⟩

/-- A channel state holding live worker 0. -/
def wit7 : WState := ⟨some 0, none, [0], [], 1, 0⟩

/-- A channel state holding live worker 0 with a pending shutdown timer 5. -/
def wit8 : WState := ⟨some 0, some 5, [0], [5], 1, 6⟩

/-- A channel state whose stored worker 0 is already dead, with a pending
shutdown timer 3. -/
def wit9 : WState := ⟨some 0, some 3, [], [3], 1, 4⟩

-- ===== WITNESSES =====

/-- Witness for C1: in `env1` the second candidate (zero-based position 1)
succeeds after the first returns null. -/
theorem handleProxy_first_success_witness :
    (handleProxy env1).2 = .ok 7 ∧
    attemptTrace (handleProxy env1).1 =
      ((env1.accounts.take (1 + 1)).enum).map
        (fun p => (p.2.name, finalBodyBuffer env1, p.1)) :=
  handleProxy_first_success env1 1 7 rfl (by decide) (by decide) (by decide)

/-- Witness for C2 at `env1`, whose request body is `[1, 2]`. -/
theorem handleProxy_body_consistency_witness :
    (∀ n b i, Event.proxyWithAccountCall n b i ∈ (handleProxy env1).1 →
      b = finalBodyBuffer env1) ∧
    (∀ b, Event.proxyUnauthenticatedCall b ∈ (handleProxy env1).1 →
      b = finalBodyBuffer env1) ∧
    (∀ m, env1.modifiedBody = some m → finalBodyBuffer env1 = some m) ∧
    (env1.modifiedBody = none → finalBodyBuffer env1 = some [1, 2]) ∧
    (∀ j, (finalCreateBodyStream (finalBodyBuffer env1) j).map BodyStream.content
      = finalBodyBuffer env1) ∧
    (∀ j k s t, j ≠ k → finalCreateBodyStream (finalBodyBuffer env1) j = some s →
      finalCreateBodyStream (finalBodyBuffer env1) k = some t →
      s.allocId ≠ t.allocId) :=
  handleProxy_body_consistency env1 [1, 2] rfl

/-- Witness for C4 at `envReauth`: the raised error names alice and carol. -/
theorem handleProxy_expired_reauth_witness :
    (handleProxy envReauth).2 = .error (.serviceUnavailable
      (expiredTokensMessage (needsReauth envReauth)) envReauth.providerName) ∧
    (∀ a ∈ needsReauth envReauth,
      a.refresh_token.isSome = true ∧ envReauth.isRefreshTokenLikelyExpired a = true ∧
      (∃ pre post, expiredTokensMessage (needsReauth envReauth) = pre ++ a.name ++ post) ∧
      (∃ pre post, expiredTokensMessage (needsReauth envReauth)
        = pre ++ reauthCommand a.name ++ post)) ∧
    (∀ a ∈ envReauth.accounts, a.refresh_token.isSome = true →
      envReauth.isRefreshTokenLikelyExpired a = true → a ∈ needsReauth envReauth) :=
  handleProxy_expired_reauth envReauth rfl (by decide) (by decide) (by decide)

/-- Witness for C5 at `envEmpty`. -/
theorem handleProxy_empty_accounts_witness :
    handleProxy envEmpty =
      ([.trackClientVersion, .validateProviderPath, .prepareRequestBody,
        .interceptAndModifyRequest, .createRequestMetadata, .selectAccountsForRequest,
        .proxyUnauthenticatedCall (finalBodyBuffer envEmpty)], .ok envEmpty.proxyUnauthenticated) ∧
    (handleProxy envEmpty).1.countP Event.isUnauthCall = 1 ∧
    (handleProxy envEmpty).1.countP Event.isAccountCall = 0 :=
  handleProxy_empty_accounts envEmpty rfl rfl

/-- Witness for C6 at `envGeneric`: two attempts, generic error. -/
theorem handleProxy_generic_failure_witness :
    (handleProxy envGeneric).2 = .error (.serviceUnavailable
      (genericFailureMessage envGeneric.accounts.length) envGeneric.providerName) ∧
    (∃ pre post, genericFailureMessage envGeneric.accounts.length
      = pre ++ natToString envGeneric.accounts.length ++ post) ∧
    (∀ nm, ¬ ∃ pre post, genericFailureMessage envGeneric.accounts.length
      = pre ++ reauthCommand nm ++ post) :=
  handleProxy_generic_failure envGeneric rfl (by decide) (by decide) (by decide)

/-- Witness for C7 at the concrete state `wit7`. -/
theorem getUsageWorker_crash_recovery_witness :
    ((workerOnError wit7).usageWorkerInstance = none ∧
     (getUsageWorker (workerOnError wit7)).1 = wit7.nextWorkerId ∧
     (getUsageWorker (workerOnError wit7)).1 ≠ 0 ∧
     (getUsageWorker (workerOnError wit7)).2.usageWorkerInstance
       = some wit7.nextWorkerId) ∧
    (runEvents [WEvent.acquire]).live.length ≤ 1 :=
  ⟨getUsageWorker_crash_recovery.1 wit7 0 (by decide) rfl,
   getUsageWorker_crash_recovery.2 [WEvent.acquire]⟩

/-- Witness for C8 at the concrete state `wit8` and the no-handle state. -/
theorem terminateUsageWorker_idempotent_witness :
    wObs (terminateUsageWorker (terminateUsageWorker wit8))
      = wObs (terminateUsageWorker wit8) ∧
    terminateUsageWorker initWState = initWState ∧
    (runEvents [WEvent.acquire, WEvent.terminate]).pendingTimers.length ≤ 1 :=
  ⟨terminateUsageWorker_idempotent.1 wit8,
   terminateUsageWorker_idempotent.2.1 initWState rfl,
   terminateUsageWorker_idempotent.2.2 [WEvent.acquire, WEvent.terminate]⟩

/-- Witness for C9 at the concrete state `wit9`, whose worker is dead. -/
theorem terminateUsageWorker_sendfail_safe_witness :
    (terminateUsageWorker wit9
        = { clearShutdownTimer wit9 with usageWorkerInstance := none } ∧
      (terminateUsageWorker wit9).shutdownTimerId = none ∧
      (terminateUsageWorker wit9).nextTimerId = wit9.nextTimerId ∧
      (WInv wit9 → (terminateUsageWorker wit9).pendingTimers = [])) ∧
    ((fireShutdownTimer wit9).usageWorkerInstance = none ∧
      (fireShutdownTimer wit9).shutdownTimerId = none) :=
  ⟨terminateUsageWorker_sendfail_safe.1 wit9 0 rfl (by decide),
   terminateUsageWorker_sendfail_safe.2 wit9 3 0 rfl rfl (by decide)⟩

/-- Witness for C10 at a failing-validation environment and a valid one. -/
theorem handleProxy_validation_precedes_witness :
    handleProxy envInvalid
      = ([.trackClientVersion, .validateProviderPath], .error .validation) ∧
    (∃ tail, (handleProxy env1).1 =
      [.trackClientVersion, .validateProviderPath, .prepareRequestBody,
       .interceptAndModifyRequest, .createRequestMetadata, .selectAccountsForRequest] ++ tail ∧
      ∀ e ∈ tail, Event.isAccountCall e = true ∨ Event.isUnauthCall e = true) :=
  ⟨(handleProxy_validation_precedes envInvalid).1 rfl,
   (handleProxy_validation_precedes env1).2 rfl⟩

end BetterCcflare
